import Mathlib

/-!
NACK tracker and send-side bandwidth estimator of the SFU.

Shallow embedding of `pkg/sfu/streamallocator/nacktracker.go` (namespace
`StreamAllocator`) and of `pkg/sfu/sendsidebwe/send_side_bwe.go` (namespace
`Sendsidebwe`).

Modelling conventions

* `uint32` counters are natural numbers; every addition the source performs
  on them is taken modulo `2 ^ 32`.
* `time.Duration` is an integer number of nanoseconds; the elapsed time
  `time.Since(t)` is `since now t`, the difference of the two clock readings
  saturated to the 64-bit range of `time.Duration`.
* `time.Time` is `Option Int`: `none` is the zero `time.Time{}` (the only value
  for which `IsZero()` holds), `some t` is a value obtained from `time.Now()`
  whose clock reading is `t` nanoseconds.  A method call reads the clock once;
  that reading is the explicit argument `now`.
* `float64` is the type `Float64` below; a finite value is carried as the
  rational number it denotes.
-/

namespace StreamAllocator

/-! ## Durations and the clock -/

/-- The constant `time.Millisecond`, in nanoseconds. -/
def Millisecond : Int := 1000000

/-- The constant `time.Second`, in nanoseconds. -/
def Second : Int := 1000 * Millisecond

/-- Smallest `time.Duration` (`math.MinInt64`). -/
def minDuration : Int := -(2 ^ 63)

/-- Largest `time.Duration` (`math.MaxInt64`). -/
def maxDuration : Int := 2 ^ 63 - 1

/-- The library call `time.Since(start)` evaluated when the clock reads `now`:
the difference of the two readings, saturated to the range of `time.Duration`. -/
def since (now start : Int) : Int :=
  if maxDuration < now - start then maxDuration
  else if now - start < minDuration then minDuration
  else now - start

/-! ## float64 -/

/-- Values of Go's `float64`; a finite value is the rational it denotes. -/
inductive Float64 where
  | nan
  | negInf
  | posInf
  | finite (v : ℚ)
  deriving DecidableEq

/-- The comparison `x > y` of two `float64` values (false when either is NaN). -/
def Float64.gt : Float64 → Float64 → Bool
  | .finite a, .finite b => decide (b < a)
  | .finite _, .negInf => true
  | .posInf, .finite _ => true
  | .posInf, .negInf => true
  | _, _ => false

/-- Round the fraction `num / den` to the nearest natural number, ties to even. -/
def roundHalfEven (num den : Nat) : Nat :=
  let q := num / den
  let r := num % den
  if 2 * r < den then q
  else if den < 2 * r then q + 1
  else if q % 2 = 0 then q
  else q + 1

/-- Bit length minus one of `n` (`0` for `n < 2`), by repeated halving; `fuel`
bounds the number of halvings. -/
def log2Fuel : Nat → Nat → Nat
  | 0, _ => 0
  | fuel + 1, n => if n < 2 then 0 else log2Fuel fuel (n / 2) + 1

/-- Floor of the binary logarithm of `n` (`0` for `n = 0`). -/
def ilog2 (n : Nat) : Nat := log2Fuel n n

/-- The power of two by which `a / b` is scaled so that the scaled quotient
lies in `[2 ^ 52, 2 ^ 53)`, the range of a 53-bit significand. -/
def f64Shift (a b : Nat) : Nat :=
  if b * 2 ^ ilog2 a ≤ a * 2 ^ ilog2 b then 52 + ilog2 b - ilog2 a
  else 53 + ilog2 b - ilog2 a

/-- The `float64` nearest to the fraction `a / b` (round to nearest, ties to
even), for `a < 2 ^ 53` and `0 < b`: the scaled quotient is rounded to an
integer significand and scaled back.  For operands below `2 ^ 32` the binary
exponent lies in `[-32, 31]`, so neither overflow nor subnormals arise. -/
def f64Quot (a b : Nat) : ℚ :=
  mkRat (roundHalfEven (a * 2 ^ f64Shift a b) b) (2 ^ f64Shift a b)

/-- The conversion `float64(n)` of a `uint32`; exact, as `n < 2 ^ 53`. -/
def Float64.ofUInt32 (n : Nat) : Float64 := .finite n

/-- The quotient `float64(a) / float64(b)` of two converted `uint32` values
with `b ≠ 0`: the exact quotient correctly rounded. -/
def Float64.divUInt32 (a b : Nat) : Float64 := .finite (f64Quot a b)

/-- The `float64` denoted by a decimal constant equal to the fraction `a / b`. -/
def Float64.ofFrac (a b : Nat) : Float64 := .finite (f64Quot a b)

/-! ## Configuration -/

/-- The struct `NackTrackerConfig`. -/
structure NackTrackerConfig where
  WindowMinDuration : Int
  WindowMaxDuration : Int
  RatioThreshold : Float64
  deriving DecidableEq

/-- The preset `DefaultNackTrackerConfigProbe`. -/
def DefaultNackTrackerConfigProbe : NackTrackerConfig :=
  { WindowMinDuration := 500 * Millisecond
    WindowMaxDuration := 1 * Second
    RatioThreshold := Float64.ofFrac 4 100 }

/-- The preset `DefaultNackTrackerConfigNonProbe`. -/
def DefaultNackTrackerConfigNonProbe : NackTrackerConfig :=
  { WindowMinDuration := 2 * Second
    WindowMaxDuration := 3 * Second
    RatioThreshold := Float64.ofFrac 8 100 }

/-- The struct `NackTrackerParams`; the logger has no effect on the tracker
and is left out. -/
structure NackTrackerParams where
  Name : String
  Config : NackTrackerConfig
  deriving DecidableEq

/-- The struct `NackTracker`. -/
structure NackTracker where
  params : NackTrackerParams
  windowStartTime : Option Int
  packets : Nat
  repeatedNacks : Nat
  deriving DecidableEq

/-- The constructor `NewNackTracker`: zero start time, zero counters. -/
def NewNackTracker (params : NackTrackerParams) : NackTracker :=
  { params := params, windowStartTime := none, packets := 0, repeatedNacks := 0 }

/-- First block of `Add`: an active window older than a non-zero
`WindowMaxDuration` is cleared. -/
def NackTracker.expire (n : NackTracker) (now : Int) : NackTracker :=
  match n.windowStartTime with
  | some start =>
    if n.params.Config.WindowMaxDuration ≠ 0 ∧
        n.params.Config.WindowMaxDuration < since now start then
      { n with windowStartTime := none, packets := 0, repeatedNacks := 0 }
    else n
  | none => n

/-- Second block of `Add`: the window starts when a repeated NACK arrives
while the repeated-NACK counter is zero. -/
def NackTracker.startWindow (n : NackTracker) (now : Int) (repeatedNacks : Nat) : NackTracker :=
  if n.repeatedNacks = 0 ∧ repeatedNacks ≠ 0 then
    { n with windowStartTime := some now }
  else n

/-- Third block of `Add`: both counters accumulate while the window is active. -/
def NackTracker.accumulate (n : NackTracker) (packets repeatedNacks : Nat) : NackTracker :=
  match n.windowStartTime with
  | some _ =>
    { n with
      packets := (n.packets + packets) % 2 ^ 32
      repeatedNacks := (n.repeatedNacks + repeatedNacks) % 2 ^ 32 }
  | none => n

/-- The method `Add(packets, repeatedNacks)` called when the clock reads `now`. -/
def NackTracker.Add (n : NackTracker) (now : Int) (packets repeatedNacks : Nat) : NackTracker :=
  ((n.expire now).startWindow now repeatedNacks).accumulate packets repeatedNacks

/-- The method `GetRatio`. -/
def NackTracker.GetRatio (n : NackTracker) : Float64 :=
  if n.packets ≠ 0 then
    let ratio := Float64.divUInt32 n.repeatedNacks n.packets
    if ratio.gt (.finite 1) then .finite 1 else ratio
  else .finite 0

/-- The method `IsTriggered` called when the clock reads `now`. -/
def NackTracker.IsTriggered (n : NackTracker) (now : Int) : Bool :=
  match n.windowStartTime with
  | some start =>
    if n.params.Config.WindowMinDuration ≠ 0 ∧
        n.params.Config.WindowMinDuration < since now start then
      n.GetRatio.gt n.params.Config.RatioThreshold
    else false
  | none => false

/-! ## Runs of `Add` calls -/

/-- One call of `Add`: the clock reading at the call and its two arguments. -/
structure AddCall where
  now : Int
  packets : Nat
  repeatedNacks : Nat
  deriving DecidableEq

/-- The tracker after a sequence of `Add` calls, applied first to last. -/
def NackTracker.AddAll (n : NackTracker) (calls : List AddCall) : NackTracker :=
  calls.foldl (fun t c => t.Add c.now c.packets c.repeatedNacks) n

/-- A run of `Add` calls from state `n` in which every call reports no more
repeated NACKs than packets and no call wraps the `packets` counter: at each
call the counter left by the expiry block plus the argument stays below
`2 ^ 32`. -/
def NackTracker.boundedRun (n : NackTracker) : List AddCall → Bool
  | [] => true
  | c :: cs =>
    decide (c.repeatedNacks ≤ c.packets) &&
    decide ((n.expire c.now).packets + c.packets < 2 ^ 32) &&
    (n.Add c.now c.packets c.repeatedNacks).boundedRun cs

/-! ## Concrete configurations and states used by the scenarios -/

/-- Parameters carrying the probe preset. -/
def probeParams : NackTrackerParams :=
  { Name := "probe", Config := DefaultNackTrackerConfigProbe }

/-- The probe preset with `WindowMinDuration` set to zero. -/
def zeroMinParams : NackTrackerParams :=
  { Name := "zero-min", Config := { DefaultNackTrackerConfigProbe with WindowMinDuration := 0 } }

/-- The probe preset with `WindowMaxDuration` set to zero. -/
def zeroMaxParams : NackTrackerParams :=
  { Name := "zero-max", Config := { DefaultNackTrackerConfigProbe with WindowMaxDuration := 0 } }

/-- A run of `Add` calls from state `n` in which neither counter overflows
`uint32`: at each call the counters left by the expiry block plus the
arguments stay below `2 ^ 32`. -/
def NackTracker.exactRun (n : NackTracker) : List AddCall → Bool
  | [] => true
  | c :: cs =>
    decide ((n.expire c.now).packets + c.packets < 2 ^ 32) &&
    decide ((n.expire c.now).repeatedNacks + c.repeatedNacks < 2 ^ 32) &&
    (n.Add c.now c.packets c.repeatedNacks).exactRun cs

/-! ## `ToString` and the tracker as an object with methods -/

/-- The values that `ToString` hands to `fmt.Sprintf`: the name, for an active
window its start, the clock reading and the elapsed time `now.Sub(start)`,
the two counters and the ratio.  The text is a rendering of these values. -/
structure ToStringFields where
  name : String
  window : Option (Int × Int × Int)
  packets : Nat
  repeatedNacks : Nat
  ratio : Float64
  deriving DecidableEq

/-- The method `ToString` called when the clock reads `now`. -/
def NackTracker.ToString (n : NackTracker) (now : Int) : ToStringFields :=
  { name := n.params.Name
    window :=
      match n.windowStartTime with
      | some start => some (start, now, since now start)
      | none => none
    packets := n.packets
    repeatedNacks := n.repeatedNacks
    ratio := n.GetRatio }

/-- A call of one of the four methods of `*NackTracker`, with the clock reading
of the call where the method reads the clock. -/
inductive Method where
  | add (now : Int) (packets repeatedNacks : Nat)
  | getRatio
  | isTriggered (now : Int)
  | toString (now : Int)
  deriving DecidableEq

/-- What a method call returns. -/
inductive Returned where
  | nothing
  | ratio (r : Float64)
  | triggered (b : Bool)
  | text (t : ToStringFields)
  deriving DecidableEq

/-- A method call on the receiver `n`: the receiver after the call and the
returned value.  Only `Add` assigns to fields of the receiver. -/
def NackTracker.call (n : NackTracker) : Method → NackTracker × Returned
  | .add now packets repeatedNacks => (n.Add now packets repeatedNacks, .nothing)
  | .getRatio => (n, .ratio n.GetRatio)
  | .isTriggered now => (n, .triggered (n.IsTriggered now))
  | .toString now => (n, .text (n.ToString now))

/-! ## Configurations the specification calls invalid -/

/-- A configuration is invalid when `WindowMinDuration > WindowMaxDuration` or
one of the two durations is negative. -/
def NackTrackerConfig.invalid (c : NackTrackerConfig) : Bool :=
  decide (c.WindowMaxDuration < c.WindowMinDuration) ||
  decide (c.WindowMinDuration < 0) || decide (c.WindowMaxDuration < 0)

/-- Parameters with `WindowMinDuration = 2s` above `WindowMaxDuration = 1s`. -/
def invertedParams : NackTrackerParams :=
  { Name := "inverted"
    Config := { DefaultNackTrackerConfigProbe with WindowMinDuration := 2 * Second } }

/-- Parameters with both durations negative. -/
def negativeParams : NackTrackerParams :=
  { Name := "negative"
    Config := { DefaultNackTrackerConfigProbe with
      WindowMinDuration := -(2 * Second), WindowMaxDuration := -(1 * Second) } }

end StreamAllocator

namespace Sendsidebwe

/-! ## Congestion state -/

/-- The type `CongestionState`, a Go `int`. -/
abbrev CongestionState := Int

/-- The constant `CongestionStateNone` (`iota = 0`). -/
def CongestionStateNone : CongestionState := 0

/-- The constant `CongestionStateEarlyWarning`. -/
def CongestionStateEarlyWarning : CongestionState := 1

/-- The constant `CongestionStateEarlyWarningHangover`. -/
def CongestionStateEarlyWarningHangover : CongestionState := 2

/-- The constant `CongestionStateCongested`. -/
def CongestionStateCongested : CongestionState := 3

/-- The constant `CongestionStateCongestedHangover`. -/
def CongestionStateCongestedHangover : CongestionState := 4

/-- The character of the decimal digit `d`. -/
def digitChar (d : Nat) : Char := Char.ofNat (48 + d)

/-- Decimal digits of `n`, least significant first, by repeated division by
ten; `fuel` bounds the number of divisions. -/
def digitsFuel : Nat → Nat → List Nat
  | 0, _ => []
  | fuel + 1, n => if n = 0 then [] else (n % 10) :: digitsFuel fuel (n / 10)

/-- Decimal digits of a natural number, most significant first; zero is the
single digit `0`. -/
def decimalDigits (n : Nat) : List Nat :=
  if n = 0 then [0] else (digitsFuel n n).reverse

/-- The library call `fmt.Sprintf("%d", i)`: decimal digits, preceded by a
minus sign for a negative number. -/
def formatInt : Int → String
  | .ofNat n => String.mk ((decimalDigits n).map digitChar)
  | .negSucc n => String.mk ('-' :: (decimalDigits (n + 1)).map digitChar)

/-- The method `CongestionState.String`. -/
def CongestionState.String (c : CongestionState) : String :=
  if c = CongestionStateNone then "NONE"
  else if c = CongestionStateEarlyWarning then "EARLY_WARNING"
  else if c = CongestionStateEarlyWarningHangover then "EARLY_WARNING_HANGOVER"
  else if c = CongestionStateCongested then "CONGESTED"
  else if c = CongestionStateCongestedHangover then "CONGESTED_HANGOVER"
  else formatInt c

/-! ## Congestion detector -/

/-- Modelled from the spec: the queuing region of a completed packet group
(section 3); the type is declared in code of the package that is not part of
the sources at hand. -/
inductive QueuingRegion where
  | JQR
  | DQR
  | Indeterminate
  deriving DecidableEq

/-- Modelled from the spec: the group-count thresholds of
`CongestionDetectorConfig` (section 6) that the state machine of section 4.2
reads; the struct is declared outside the sources at hand. -/
structure CongestionDetectorConfig where
  EarlyWarningGroups : Nat
  CongestedGroups : Nat
  RecoverGroups : Nat
  HangoverReleaseGroups : Nat
  deriving DecidableEq

/-- Modelled from the spec: the struct `congestionDetectorParams`, of which
the sources at hand show the fields `Config` and `Logger` at its one use; the
logger is left out. -/
structure congestionDetectorParams where
  Config : CongestionDetectorConfig
  deriving DecidableEq

/-- Modelled from the spec: the part of the struct `congestionDetector` that
the state machine of section 4.2 uses, namely the current congestion state and
the lengths of the most recent runs of JQR and of DQR groups. -/
structure congestionDetector where
  params : congestionDetectorParams
  state : CongestionState
  jqrStreak : Nat
  dqrStreak : Nat
  deriving DecidableEq

/-- Modelled from the spec: the constructor `newCongestionDetector`; the
initial state is `None` (section 3) and no group has been seen. -/
def newCongestionDetector (params : congestionDetectorParams) : congestionDetector :=
  { params := params, state := CongestionStateNone, jqrStreak := 0, dqrStreak := 0 }

/-- Modelled from the spec: the transition table of section 4.2, read top to
bottom for the current state, one row per completed group.  `region` is the
region of the newest completed group and the streaks include that group. -/
def nextState (cfg : CongestionDetectorConfig) (s : CongestionState)
    (region : QueuingRegion) (jqrStreak dqrStreak : Nat) : CongestionState :=
  if s = CongestionStateNone then
    if cfg.EarlyWarningGroups ≤ jqrStreak then CongestionStateEarlyWarning else s
  else if s = CongestionStateEarlyWarning then
    if cfg.CongestedGroups ≤ jqrStreak then CongestionStateCongested
    else if cfg.RecoverGroups ≤ dqrStreak then CongestionStateEarlyWarningHangover
    else s
  else if s = CongestionStateEarlyWarningHangover then
    if region = QueuingRegion.JQR then CongestionStateEarlyWarning
    else if cfg.HangoverReleaseGroups ≤ dqrStreak then CongestionStateNone
    else s
  else if s = CongestionStateCongested then
    if cfg.RecoverGroups ≤ dqrStreak then CongestionStateCongestedHangover else s
  else if s = CongestionStateCongestedHangover then
    if region = QueuingRegion.JQR then CongestionStateCongested
    else if cfg.HangoverReleaseGroups ≤ dqrStreak then CongestionStateEarlyWarningHangover
    else s
  else s

/-- Modelled from the spec: the detector after one more completed group of the
given region.  A JQR group extends the JQR run and ends the DQR run, a DQR
group does the converse, an indeterminate group neither advances nor resets
the streaks (section 4.2); then the transition table is applied. -/
def congestionDetector.onGroup (d : congestionDetector) (region : QueuingRegion) :
    congestionDetector :=
  let jqr := match region with
    | .JQR => d.jqrStreak + 1
    | .DQR => 0
    | .Indeterminate => d.jqrStreak
  let dqr := match region with
    | .JQR => 0
    | .DQR => d.dqrStreak + 1
    | .Indeterminate => d.dqrStreak
  { d with
    state := nextState d.params.Config d.state region jqr dqr
    jqrStreak := jqr
    dqrStreak := dqr }

/-- Modelled from the spec: the detector after a sequence of completed groups,
oldest first. -/
def congestionDetector.onGroups (d : congestionDetector) (regions : List QueuingRegion) :
    congestionDetector :=
  regions.foldl congestionDetector.onGroup d

/-! ## The facade -/

/-- The struct `SendSideBWEConfig`. -/
structure SendSideBWEConfig where
  CongestionDetector : CongestionDetectorConfig
  deriving DecidableEq

/-- The struct `SendSideBWEParams`; the logger is left out. -/
structure SendSideBWEParams where
  Config : SendSideBWEConfig
  deriving DecidableEq

/-- The struct `SendSideBWE`, which embeds the detector it owns. -/
structure SendSideBWE where
  params : SendSideBWEParams
  congestionDetector : congestionDetector
  deriving DecidableEq

/-- The constructor `NewSendSideBWE`: the detector is built from the
`CongestionDetector` part of the configuration. -/
def NewSendSideBWE (params : SendSideBWEParams) : SendSideBWE :=
  { params := params
    congestionDetector := newCongestionDetector { Config := params.Config.CongestionDetector } }

/-- A detector configuration with thresholds `2`, `4`, `3`, `5`. -/
def sampleConfig : SendSideBWEParams :=
  { Config := { CongestionDetector :=
      { EarlyWarningGroups := 2, CongestedGroups := 4, RecoverGroups := 3,
        HangoverReleaseGroups := 5 } } }

/-- Thresholds `2`, `4`, `0`, `5`: `RecoverGroups` is zero. -/
def zeroRecoverConfig : SendSideBWEParams :=
  { Config := { CongestionDetector :=
      { EarlyWarningGroups := 2, CongestedGroups := 4, RecoverGroups := 0,
        HangoverReleaseGroups := 5 } } }

/-- Thresholds `3`, `3`, `3`, `5`: `EarlyWarningGroups` equals `CongestedGroups`. -/
def equalThresholdsConfig : SendSideBWEParams :=
  { Config := { CongestionDetector :=
      { EarlyWarningGroups := 3, CongestedGroups := 3, RecoverGroups := 3,
        HangoverReleaseGroups := 5 } } }

/-- Thresholds `0`, `2`, `3`, `5`: `EarlyWarningGroups` is zero. -/
def zeroEarlyWarningConfig : SendSideBWEParams :=
  { Config := { CongestionDetector :=
      { EarlyWarningGroups := 0, CongestedGroups := 2, RecoverGroups := 3,
        HangoverReleaseGroups := 5 } } }

/-- The congestion states after each of the first `n` groups of an all-JQR
sequence fed to the detector `d`, the state before any group first. -/
def jqrTrace (d : congestionDetector) (n : Nat) : List CongestionState :=
  (List.range (n + 1)).map fun k =>
    (d.onGroups (List.replicate k QueuingRegion.JQR)).state

end Sendsidebwe

namespace StreamAllocator

/-! ## The elapsed time -/

/-- Whenever the difference of the two clock readings fits in a
`time.Duration`, as it does for two readings of the process clock,
`time.Since` is that difference. -/
lemma since_eq_sub (now start : Int) (hlo : minDuration ≤ now - start)
    (hhi : now - start ≤ maxDuration) : since now start = now - start := by
  unfold since
  rw [if_neg (not_lt.mpr hhi), if_neg (not_lt.mpr hlo)]

/-! ## Properties of the float64 rounding -/

/-- With enough fuel, `log2Fuel` brackets `n` between consecutive powers of two. -/
lemma log2Fuel_spec : ∀ (fuel n : Nat), 0 < n → n < 2 ^ fuel →
    2 ^ log2Fuel fuel n ≤ n ∧ n < 2 ^ (log2Fuel fuel n + 1) := by
  intro fuel
  induction fuel with
  | zero => intro n h0 h1; simp at h1; omega
  | succ k ih =>
    intro n h0 h1
    unfold log2Fuel
    by_cases h2 : n < 2
    · simp [h2]; omega
    · simp only [h2, if_false]
      have h3 : 0 < n / 2 := by omega
      have h4 : n / 2 < 2 ^ k := by rw [pow_succ] at h1; omega
      obtain ⟨h5, h6⟩ := ih (n / 2) h3 h4
      constructor
      · rw [pow_succ]; omega
      · rw [pow_succ]; omega

/-- The value `ilog2 n` is the floor of the binary logarithm of a positive `n`. -/
lemma ilog2_spec (n : Nat) (h : 0 < n) : 2 ^ ilog2 n ≤ n ∧ n < 2 ^ (ilog2 n + 1) :=
  log2Fuel_spec n n h (Nat.lt_two_pow n)

/-- A number below `2 ^ (k + 1)` has binary logarithm at most `k`. -/
lemma ilog2_le_of_lt_pow (n k : Nat) (h : 0 < n) (hk : n < 2 ^ (k + 1)) : ilog2 n ≤ k := by
  by_contra hc
  have h1 := (ilog2_spec n h).1
  have h2 : 2 ^ (k + 1) ≤ 2 ^ ilog2 n := Nat.pow_le_pow_right (by norm_num) (by omega)
  omega

/-- The scaled quotient `a * 2 ^ f64Shift a b / b` lies in `[2 ^ 52, 2 ^ 53)`: the rounded significand has 53 bits. -/
lemma f64Shift_spec (a b : Nat) (ha : 0 < a) (ha53 : a < 2 ^ 53) (hb : 0 < b) :
    2 ^ 52 * b ≤ a * 2 ^ f64Shift a b ∧ a * 2 ^ f64Shift a b < 2 ^ 53 * b := by
  obtain ⟨a1, a2⟩ := ilog2_spec a ha
  obtain ⟨b1, b2⟩ := ilog2_spec b hb
  have hla : ilog2 a ≤ 52 := ilog2_le_of_lt_pow a 52 ha ha53
  have hpa : 0 < 2 ^ ilog2 a := Nat.two_pow_pos _
  unfold f64Shift
  split_ifs with hc
  · have e : 2 ^ (52 + ilog2 b - ilog2 a) * 2 ^ ilog2 a = 2 ^ 52 * 2 ^ ilog2 b := by
      rw [← pow_add, ← pow_add]; congr 1; omega
    constructor
    · apply Nat.le_of_mul_le_mul_right _ hpa
      calc 2 ^ 52 * b * 2 ^ ilog2 a = 2 ^ 52 * (b * 2 ^ ilog2 a) := by ring
        _ ≤ 2 ^ 52 * (a * 2 ^ ilog2 b) := Nat.mul_le_mul_left _ hc
        _ = a * (2 ^ 52 * 2 ^ ilog2 b) := by ring
        _ = a * 2 ^ (52 + ilog2 b - ilog2 a) * 2 ^ ilog2 a := by rw [← e]; ring
    · apply Nat.lt_of_mul_lt_mul_right (a := 2 ^ ilog2 a)
      calc a * 2 ^ (52 + ilog2 b - ilog2 a) * 2 ^ ilog2 a
          = 2 ^ 52 * (a * 2 ^ ilog2 b) := by rw [mul_assoc, e]; ring
        _ < 2 ^ 52 * (2 ^ (ilog2 a + 1) * 2 ^ ilog2 b) :=
            Nat.mul_lt_mul_of_pos_left (Nat.mul_lt_mul_of_pos_right a2 (Nat.two_pow_pos _)) (by norm_num)
        _ ≤ 2 ^ 52 * (2 ^ (ilog2 a + 1) * b) :=
            Nat.mul_le_mul_left _ (Nat.mul_le_mul_left _ b1)
        _ = 2 ^ 53 * b * 2 ^ ilog2 a := by rw [pow_succ]; ring
  · have e : 2 ^ (53 + ilog2 b - ilog2 a) * 2 ^ ilog2 a = 2 ^ 53 * 2 ^ ilog2 b := by
      rw [← pow_add, ← pow_add]; congr 1; omega
    push_neg at hc
    constructor
    · apply Nat.le_of_mul_le_mul_right _ hpa
      calc 2 ^ 52 * b * 2 ^ ilog2 a
          ≤ 2 ^ 52 * (2 ^ (ilog2 b + 1) * 2 ^ ilog2 a) := by
            rw [mul_assoc]
            exact Nat.mul_le_mul_left _ (Nat.mul_le_mul_right _ b2.le)
        _ ≤ 2 ^ 52 * (2 ^ (ilog2 b + 1) * a) :=
            Nat.mul_le_mul_left _ (Nat.mul_le_mul_left _ a1)
        _ = a * (2 ^ 53 * 2 ^ ilog2 b) := by rw [pow_succ]; ring
        _ = a * 2 ^ (53 + ilog2 b - ilog2 a) * 2 ^ ilog2 a := by rw [← e]; ring
    · apply Nat.lt_of_mul_lt_mul_right (a := 2 ^ ilog2 a)
      calc a * 2 ^ (53 + ilog2 b - ilog2 a) * 2 ^ ilog2 a
          = 2 ^ 53 * (a * 2 ^ ilog2 b) := by rw [mul_assoc, e]; ring
        _ < 2 ^ 53 * (b * 2 ^ ilog2 a) := Nat.mul_lt_mul_of_pos_left hc (by norm_num)
        _ = 2 ^ 53 * b * 2 ^ ilog2 a := by ring

/-- The rounded value is within one half of the fraction. -/
lemma roundHalfEven_spec (num den : Nat) (hd : 0 < den) :
    2 * (roundHalfEven num den * den) ≤ 2 * num + den ∧
    2 * num ≤ 2 * (roundHalfEven num den * den) + den := by
  have h := Nat.div_add_mod num den
  have hr := Nat.mod_lt num hd
  unfold roundHalfEven
  simp only
  generalize num / den = q at *
  generalize num % den = r at *
  subst h
  split_ifs <;> constructor <;> nlinarith

/-- Rounding never goes below the floor of the fraction. -/
lemma floor_le_roundHalfEven (num den : Nat) : num / den ≤ roundHalfEven num den := by
  unfold roundHalfEven
  simp only
  split_ifs <;> omega

/-- Rounding a fraction that is at most the integer `k` gives at most `k`. -/
lemma roundHalfEven_le_of_le (num den k : Nat) (hd : 0 < den) (h : num ≤ k * den) :
    roundHalfEven num den ≤ k := by
  have hq : num / den ≤ k := by
    apply Nat.div_le_of_le_mul; rw [Nat.mul_comm]; exact h
  rcases Nat.lt_or_ge (num / den) k with hlt | hge
  · have := (roundHalfEven_spec num den hd).1
    unfold roundHalfEven at *
    simp only at *
    split_ifs <;> omega
  · have hqk : num / den = k := by omega
    have h1 := Nat.div_add_mod num den
    have h2 : num % den = 0 := by
      rw [hqk] at h1
      have : den * k = k * den := Nat.mul_comm _ _
      omega
    unfold roundHalfEven
    simp only [h2]
    simp [hd, hqk]

/-- The value of `f64Quot` as a quotient of rationals. -/
lemma f64Quot_eq (a b : Nat) :
    f64Quot a b = (roundHalfEven (a * 2 ^ f64Shift a b) b : ℚ) / 2 ^ f64Shift a b := by
  unfold f64Quot
  rw [Rat.mkRat_eq_div]
  push_cast
  rfl

/-- A rounded quotient is never negative. -/
lemma f64Quot_nonneg (a b : Nat) : 0 ≤ f64Quot a b := by
  rw [f64Quot_eq]; positivity

/-- Rounding is monotone at one: a quotient at most one rounds to at most one. -/
lemma f64Quot_le_one (a b : Nat) (hb : 0 < b) (h : a ≤ b) : f64Quot a b ≤ 1 := by
  rw [f64Quot_eq, div_le_one (by positivity)]
  have := roundHalfEven_le_of_le (a * 2 ^ f64Shift a b) b (2 ^ f64Shift a b) hb
    (by rw [Nat.mul_comm]; exact Nat.mul_le_mul_left _ h)
  exact_mod_cast this

/-- Rounding is monotone at one: a quotient at least one rounds to at least one. -/
lemma one_le_f64Quot (a b : Nat) (hb : 0 < b) (h : b ≤ a) : 1 ≤ f64Quot a b := by
  rw [f64Quot_eq, one_le_div (by positivity)]
  have h1 : 2 ^ f64Shift a b ≤ a * 2 ^ f64Shift a b / b := by
    rw [Nat.le_div_iff_mul_le hb]
    rw [Nat.mul_comm]; exact Nat.mul_le_mul_right _ h
  have h2 := floor_le_roundHalfEven (a * 2 ^ f64Shift a b) b
  exact_mod_cast h1.trans h2

/-- Relative error of the rounded quotient: at most `2 ^ (-53)`. -/
lemma f64Quot_error (a b : Nat) (ha53 : a < 2 ^ 53) (hb : 0 < b) :
    |f64Quot a b - (a : ℚ) / b| ≤ (a : ℚ) / b / 2 ^ 53 := by
  rcases Nat.eq_zero_or_pos a with rfl | ha
  · rw [f64Quot_eq]
    have : roundHalfEven 0 b = 0 := by
      unfold roundHalfEven; simp [hb]
    simp [this]
  obtain ⟨s1, _⟩ := f64Shift_spec a b ha ha53 hb
  obtain ⟨r1, r2⟩ := roundHalfEven_spec (a * 2 ^ f64Shift a b) b hb
  rw [f64Quot_eq]
  generalize roundHalfEven (a * 2 ^ f64Shift a b) b = m at *
  generalize f64Shift a b = sh at *
  have hS : (0 : ℚ) < 2 ^ sh := by positivity
  have hbq : (0 : ℚ) < b := by exact_mod_cast hb
  have s1q : (2 : ℚ) ^ 52 * b ≤ a * 2 ^ sh := by exact_mod_cast s1
  have r1q : 2 * ((m : ℚ) * b) ≤ 2 * (a * 2 ^ sh) + b := by exact_mod_cast r1
  have r2q : 2 * ((a : ℚ) * 2 ^ sh) ≤ 2 * (m * b) + b := by exact_mod_cast r2
  have e1 : (m : ℚ) / 2 ^ sh - a / b = (m * b - a * 2 ^ sh) / (2 ^ sh * b) := by
    field_simp; ring
  rw [e1, abs_le]
  have hden : (0 : ℚ) < 2 ^ sh * b := by positivity
  have key : (b : ℚ) / 2 ≤ (a * 2 ^ sh) / 2 ^ 53 := by
    rw [div_le_div_iff₀ (by norm_num) (by positivity)]
    nlinarith
  have e3 : (a : ℚ) / b / 2 ^ 53 = ((a * 2 ^ sh) / 2 ^ 53) / (2 ^ sh * b) := by
    field_simp; ring
  rw [e3]
  constructor
  · rw [← neg_div, div_le_div_iff_of_pos_right hden]; linarith
  · rw [div_le_div_iff_of_pos_right hden]; linarith

/-! ## The triggered predicate -/

/-- C1, as stated, fails: with `WindowMinDuration = 0` the tracker holds an
active window (started at `0` by `Add(100, 5)`), its age at `600ms` exceeds
`WindowMinDuration` and its ratio exceeds `RatioThreshold`, yet `IsTriggered`
returns false. -/
theorem isTriggered_zero_min_counterexample :
    ((NewNackTracker zeroMinParams).Add 0 100 5).windowStartTime = some 0 ∧
    zeroMinParams.Config.WindowMinDuration < since (600 * Millisecond) 0 ∧
    ((NewNackTracker zeroMinParams).Add 0 100 5).GetRatio.gt
      zeroMinParams.Config.RatioThreshold = true ∧
    ((NewNackTracker zeroMinParams).Add 0 100 5).IsTriggered (600 * Millisecond) = false := by
  decide

/-- C1 (amended): for every tracker state, configuration and clock reading,
`IsTriggered` returns true exactly when `WindowMinDuration` is non-zero, the
window is active, the elapsed time `time.Since(windowStartTime)` exceeds
`WindowMinDuration` and `GetRatio() > RatioThreshold`; it returns false
otherwise. -/
theorem isTriggered_iff (n : NackTracker) (now : Int) :
    n.IsTriggered now = true ↔
      n.params.Config.WindowMinDuration ≠ 0 ∧
      (∃ start, n.windowStartTime = some start ∧
        n.params.Config.WindowMinDuration < since now start) ∧
      n.GetRatio.gt n.params.Config.RatioThreshold = true := by
  unfold NackTracker.IsTriggered
  cases hw : n.windowStartTime with
  | none => simp
  | some start =>
    by_cases h : n.params.Config.WindowMinDuration ≠ 0 ∧
        n.params.Config.WindowMinDuration < since now start
    · simp [h]
    · simp only [h, if_false]
      constructor
      · intro hf; cases hf
      · rintro ⟨h0, ⟨s, hs, hlt⟩, _⟩
        cases hs
        exact absurd ⟨h0, hlt⟩ h

/-! ## The three blocks of `Add` -/

/-- C2, as stated, fails: with `WindowMaxDuration = 0` a window started at `0`
is older than `WindowMaxDuration` at `1100ms`, yet `Add(50, 3)` keeps the
window and accumulates onto it instead of behaving as on a fresh tracker. -/
theorem add_zero_max_counterexample :
    ((NewNackTracker zeroMaxParams).Add 0 100 5).windowStartTime = some 0 ∧
    zeroMaxParams.Config.WindowMaxDuration < since (1100 * Millisecond) 0 ∧
    ((NewNackTracker zeroMaxParams).Add 0 100 5).Add (1100 * Millisecond) 50 3 =
      { params := zeroMaxParams, windowStartTime := some 0, packets := 150,
        repeatedNacks := 8 } ∧
    ((NewNackTracker zeroMaxParams).Add 0 100 5).Add (1100 * Millisecond) 50 3 ≠
      (NewNackTracker zeroMaxParams).Add (1100 * Millisecond) 50 3 := by
  decide

/-- C2 (amended): for an active window, a non-zero `WindowMaxDuration` and an
`Add(p, r)` at a clock reading whose elapsed time since the window start
exceeds `WindowMaxDuration`, the window is cleared before accumulation: the
result equals `Add(p, r)` at the same reading on a fresh tracker, that is
start `now`, `packets = p`, `repeatedNacks = r` when `r > 0`, and dormant with
both counters zero when `r = 0`. -/
theorem add_expired (n : NackTracker) (start now : Int) (p r : Nat)
    (hactive : n.windowStartTime = some start)
    (hmax : n.params.Config.WindowMaxDuration ≠ 0)
    (hold : n.params.Config.WindowMaxDuration < since now start)
    (hp : p < 2 ^ 32) (hr : r < 2 ^ 32) :
    n.Add now p r = (NewNackTracker n.params).Add now p r ∧
    (0 < r → n.Add now p r =
      { params := n.params, windowStartTime := some now, packets := p,
        repeatedNacks := r }) ∧
    (r = 0 → n.Add now p r =
      { params := n.params, windowStartTime := none, packets := 0,
        repeatedNacks := 0 }) := by
  have hexp : n.expire now = NewNackTracker n.params := by
    simp [NackTracker.expire, hactive, hmax, hold, NewNackTracker]
  have hfresh : (NewNackTracker n.params).expire now = NewNackTracker n.params := by
    simp [NackTracker.expire, NewNackTracker]
  refine ⟨?_, ?_, ?_⟩
  · simp [NackTracker.Add, hexp, hfresh]
  · intro hpos
    have hne : r ≠ 0 := by omega
    simp [NackTracker.Add, hexp, NackTracker.startWindow, NackTracker.accumulate,
      NewNackTracker, hne, Nat.mod_eq_of_lt hp, Nat.mod_eq_of_lt hr]
    omega
  · intro hz
    simp [NackTracker.Add, hexp, NackTracker.startWindow, NackTracker.accumulate,
      NewNackTracker, hz]

/-- Witness of C2: a window started at `0` under the probe preset, then
`Add(50, 3)` at `1100ms`. -/
theorem add_expired_witness :
    ((NewNackTracker probeParams).Add 0 100 5).Add (1100 * Millisecond) 50 3 =
      (NewNackTracker ((NewNackTracker probeParams).Add 0 100 5).params).Add
        (1100 * Millisecond) 50 3 ∧
    (0 < 3 → ((NewNackTracker probeParams).Add 0 100 5).Add (1100 * Millisecond) 50 3 =
      { params := ((NewNackTracker probeParams).Add 0 100 5).params,
        windowStartTime := some (1100 * Millisecond), packets := 50,
        repeatedNacks := 3 }) ∧
    (3 = 0 → ((NewNackTracker probeParams).Add 0 100 5).Add (1100 * Millisecond) 50 3 =
      { params := ((NewNackTracker probeParams).Add 0 100 5).params,
        windowStartTime := none, packets := 0, repeatedNacks := 0 }) :=
  add_expired ((NewNackTracker probeParams).Add 0 100 5) 0 (1100 * Millisecond) 50 3
    (by decide) (by decide) (by decide) (by decide) (by decide)

/-- C3: on a dormant tracker (window not started, both counters zero),
`Add(p, r)` with `r = 0` leaves the tracker dormant with both counters zero,
so the `p` packets are not counted; with `r > 0` it starts the window at the
clock reading, with `packets = p` and `repeatedNacks = r`. -/
theorem add_dormant (n : NackTracker) (now : Int) (p r : Nat)
    (hdormant : n.windowStartTime = none) (hpk : n.packets = 0)
    (hrn : n.repeatedNacks = 0) (hp : p < 2 ^ 32) (hr : r < 2 ^ 32) :
    (r = 0 → n.Add now p r = n ∧ (n.Add now p r).windowStartTime = none ∧
      (n.Add now p r).packets = 0 ∧ (n.Add now p r).repeatedNacks = 0) ∧
    (0 < r → (n.Add now p r).windowStartTime = some now ∧
      (n.Add now p r).packets = p ∧ (n.Add now p r).repeatedNacks = r ∧
      (n.Add now p r).params = n.params) := by
  have hexp : n.expire now = n := by simp [NackTracker.expire, hdormant]
  constructor
  · intro hz
    have hadd : n.Add now p r = n := by
      simp [NackTracker.Add, hexp, NackTracker.startWindow, NackTracker.accumulate,
        hz, hdormant]
    rw [hadd]
    exact ⟨rfl, hdormant, hpk, hrn⟩
  · intro hpos
    have hne : r ≠ 0 := by omega
    simp [NackTracker.Add, hexp, NackTracker.startWindow, NackTracker.accumulate,
      hne, hpk, hrn, Nat.mod_eq_of_lt hp, Nat.mod_eq_of_lt hr]
    omega

/-- Witness of C3: `Add(100, 5)` at reading `7` on a fresh probe tracker. -/
theorem add_dormant_witness :
    (5 = 0 → (NewNackTracker probeParams).Add 7 100 5 = NewNackTracker probeParams ∧
      ((NewNackTracker probeParams).Add 7 100 5).windowStartTime = none ∧
      ((NewNackTracker probeParams).Add 7 100 5).packets = 0 ∧
      ((NewNackTracker probeParams).Add 7 100 5).repeatedNacks = 0) ∧
    (0 < 5 → ((NewNackTracker probeParams).Add 7 100 5).windowStartTime = some 7 ∧
      ((NewNackTracker probeParams).Add 7 100 5).packets = 100 ∧
      ((NewNackTracker probeParams).Add 7 100 5).repeatedNacks = 5 ∧
      ((NewNackTracker probeParams).Add 7 100 5).params = (NewNackTracker probeParams).params) :=
  add_dormant (NewNackTracker probeParams) 7 100 5 rfl rfl rfl (by decide) (by decide)

/-- C4: on an active window that has not expired at the clock reading
(`WindowMaxDuration = 0`, or the elapsed time since the window start is at
most `WindowMaxDuration`), `Add(p, r)` accumulates both counters modulo
`2 ^ 32`, for every `p` and `r`, `r = 0` included. -/
theorem add_active_accumulates (n : NackTracker) (start now : Int) (p r : Nat)
    (hactive : n.windowStartTime = some start)
    (hlive : n.params.Config.WindowMaxDuration = 0 ∨
      since now start ≤ n.params.Config.WindowMaxDuration) :
    (n.Add now p r).packets = (n.packets + p) % 2 ^ 32 ∧
    (n.Add now p r).repeatedNacks = (n.repeatedNacks + r) % 2 ^ 32 := by
  have hexp : n.expire now = n := by
    unfold NackTracker.expire
    rw [hactive]
    have : ¬ (n.params.Config.WindowMaxDuration ≠ 0 ∧
        n.params.Config.WindowMaxDuration < since now start) := by
      rintro ⟨h0, hlt⟩
      rcases hlive with h | h
      · exact h0 h
      · omega
    simp [this]
  unfold NackTracker.Add
  rw [hexp]
  unfold NackTracker.startWindow
  split_ifs with hs
  · simp [NackTracker.accumulate]
  · simp [NackTracker.accumulate, hactive]

/-- Witness of C4: a probe window started at `0`, then `Add(100, 0)` at `600ms`. -/
theorem add_active_accumulates_witness :
    (((NewNackTracker probeParams).Add 0 100 5).Add (600 * Millisecond) 100 0).packets =
      (((NewNackTracker probeParams).Add 0 100 5).packets + 100) % 2 ^ 32 ∧
    (((NewNackTracker probeParams).Add 0 100 5).Add (600 * Millisecond) 100 0).repeatedNacks =
      (((NewNackTracker probeParams).Add 0 100 5).repeatedNacks + 0) % 2 ^ 32 :=
  add_active_accumulates ((NewNackTracker probeParams).Add 0 100 5) 0 (600 * Millisecond)
    100 0 (by decide) (Or.inr (by decide))

/-! ## The ratio -/

/-- C5, as stated, fails: after `Add(3, 1)` the tracker holds `packets = 3` and
`repeatedNacks = 1`, and `GetRatio` returns the float64 nearest to one third,
`6004799503160661 / 2 ^ 54`, not the rational `min(1, 1 / 3)`. -/
theorem getRatio_inexact_counterexample :
    ((NewNackTracker probeParams).Add 0 3 1).packets = 3 ∧
    ((NewNackTracker probeParams).Add 0 3 1).repeatedNacks = 1 ∧
    ((NewNackTracker probeParams).Add 0 3 1).GetRatio =
      Float64.finite (6004799503160661 / 18014398509481984) ∧
    ((NewNackTracker probeParams).Add 0 3 1).GetRatio ≠
      Float64.finite (min 1 ((1 : ℚ) / 3)) := by
  have h : ((NewNackTracker probeParams).Add 0 3 1).GetRatio =
      Float64.finite (mkRat 6004799503160661 18014398509481984) := by decide
  refine ⟨by decide, by decide, ?_, ?_⟩
  · rw [h, Rat.mkRat_eq_div]; norm_num
  · rw [h, Rat.mkRat_eq_div]
    intro hc
    injection hc with hv
    norm_num at hv

/-- The result of `GetRatio` in terms of the rounded quotient. -/
lemma getRatio_eq (n : NackTracker) (h : n.packets ≠ 0) :
    n.GetRatio = Float64.finite (min 1 (f64Quot n.repeatedNacks n.packets)) := by
  unfold NackTracker.GetRatio
  simp only [h, ne_eq, not_false_eq_true, if_true, Float64.divUInt32, Float64.gt]
  by_cases hc : (1 : ℚ) < f64Quot n.repeatedNacks n.packets
  · simp [hc, min_eq_left hc.le]
  · simp [hc, min_eq_right (not_lt.mp hc)]

/-- C5 (amended): `GetRatio` returns `0` when `packets = 0` (even if
`repeatedNacks > 0`); when `packets ≠ 0` it returns `min(1, fl(repeatedNacks /
packets))`, where `fl` rounds the exact quotient to the nearest float64, and
this value agrees with the exact rational `min(1, repeatedNacks / packets)` up
to a relative error of `2 ^ (-53)`.  The counter `repeatedNacks` is a uint32. -/
theorem getRatio_spec (n : NackTracker) (hrn : n.repeatedNacks < 2 ^ 32) :
    (n.packets = 0 → n.GetRatio = Float64.finite 0) ∧
    (n.packets ≠ 0 → ∃ v : ℚ, n.GetRatio = Float64.finite v ∧
      v = min 1 (f64Quot n.repeatedNacks n.packets) ∧
      |v - min 1 ((n.repeatedNacks : ℚ) / n.packets)| ≤
        min 1 ((n.repeatedNacks : ℚ) / n.packets) / 2 ^ 53) := by
  constructor
  · intro h0
    simp [NackTracker.GetRatio, h0]
  · intro hne
    refine ⟨_, getRatio_eq n hne, rfl, ?_⟩
    have hb : 0 < n.packets := Nat.pos_of_ne_zero hne
    have hbq : (0 : ℚ) < n.packets := by exact_mod_cast hb
    have h53 : n.repeatedNacks < 2 ^ 53 := lt_trans hrn (by norm_num)
    rcases Nat.lt_or_ge n.repeatedNacks n.packets with hlt | hge
    · have h1 : f64Quot n.repeatedNacks n.packets ≤ 1 :=
        f64Quot_le_one _ _ hb hlt.le
      have h2 : (n.repeatedNacks : ℚ) / n.packets ≤ 1 := by
        rw [div_le_one hbq]; exact_mod_cast hlt.le
      rw [min_eq_right h1, min_eq_right h2]
      exact f64Quot_error _ _ h53 hb
    · have h1 : 1 ≤ f64Quot n.repeatedNacks n.packets := one_le_f64Quot _ _ hb hge
      have h2 : 1 ≤ (n.repeatedNacks : ℚ) / n.packets := by
        rw [one_le_div hbq]; exact_mod_cast hge
      rw [min_eq_left h1, min_eq_left h2]
      norm_num

/-- Witness of C5: the tracker after `Add(3, 1)`. -/
theorem getRatio_spec_witness :
    (((NewNackTracker probeParams).Add 0 3 1).packets = 0 →
      ((NewNackTracker probeParams).Add 0 3 1).GetRatio = Float64.finite 0) ∧
    (((NewNackTracker probeParams).Add 0 3 1).packets ≠ 0 → ∃ v : ℚ,
      ((NewNackTracker probeParams).Add 0 3 1).GetRatio = Float64.finite v ∧
      v = min 1 (f64Quot ((NewNackTracker probeParams).Add 0 3 1).repeatedNacks
        ((NewNackTracker probeParams).Add 0 3 1).packets) ∧
      |v - min 1 ((((NewNackTracker probeParams).Add 0 3 1).repeatedNacks : ℚ) /
          ((NewNackTracker probeParams).Add 0 3 1).packets)| ≤
        min 1 ((((NewNackTracker probeParams).Add 0 3 1).repeatedNacks : ℚ) /
          ((NewNackTracker probeParams).Add 0 3 1).packets) / 2 ^ 53) :=
  getRatio_spec ((NewNackTracker probeParams).Add 0 3 1) (by decide)

/-- In every state `GetRatio` is a finite value between zero and one. -/
lemma getRatio_mem_unit (n : NackTracker) :
    ∃ v : ℚ, n.GetRatio = Float64.finite v ∧ 0 ≤ v ∧ v ≤ 1 := by
  by_cases h : n.packets = 0
  · exact ⟨0, by simp [NackTracker.GetRatio, h], le_refl _, by norm_num⟩
  · exact ⟨_, getRatio_eq n h, le_min (by norm_num) (f64Quot_nonneg _ _), min_le_left _ _⟩

/-- C6: after any sequence of `Add` calls on a fresh tracker, at any clock
readings, with any configuration and any arguments (counter wrap-around
included), `GetRatio` is a finite value in the closed interval `[0, 1]`. -/
theorem getRatio_unit_interval (params : NackTrackerParams) (calls : List AddCall) :
    ∃ v : ℚ, ((NewNackTracker params).AddAll calls).GetRatio = Float64.finite v ∧
      0 ≤ v ∧ v ≤ 1 :=
  getRatio_mem_unit _

/-! ## Invariants over runs -/

/-- An `Add` without repeated NACKs leaves a dormant tracker unchanged. -/
lemma add_zero_of_dormant (n : NackTracker) (now : Int) (p : Nat)
    (h : n.windowStartTime = none) : n.Add now p 0 = n := by
  simp [NackTracker.Add, NackTracker.expire, NackTracker.startWindow,
    NackTracker.accumulate, h]

/-- A run of `Add` calls without repeated NACKs leaves a dormant tracker unchanged. -/
lemma addAll_zero_of_dormant (calls : List AddCall) :
    ∀ n : NackTracker, n.windowStartTime = none →
      (∀ c ∈ calls, c.repeatedNacks = 0) → n.AddAll calls = n := by
  induction calls with
  | nil => intro n _ _; rfl
  | cons c cs ih =>
    intro n hn hall
    have hc : c.repeatedNacks = 0 := hall c (List.mem_cons_self _ _)
    have hstep : n.Add c.now c.packets c.repeatedNacks = n := by
      rw [hc]; exact add_zero_of_dormant n c.now c.packets hn
    have hrest : ∀ d ∈ cs, d.repeatedNacks = 0 :=
      fun d hd => hall d (List.mem_cons_of_mem _ hd)
    show (n.Add c.now c.packets c.repeatedNacks).AddAll cs = n
    rw [hstep]
    exact ih n hn hrest

/-- C7: for every configuration and every sequence of `Add` calls whose
`repeatedNacks` arguments are all zero, applied to a fresh tracker at any clock
readings, `IsTriggered` is false at every clock reading after every prefix of
the sequence. -/
theorem isTriggered_false_of_zero_nacks (params : NackTrackerParams)
    (calls : List AddCall) (hzero : ∀ c ∈ calls, c.repeatedNacks = 0)
    (k : Nat) (now : Int) :
    ((NewNackTracker params).AddAll (calls.take k)).IsTriggered now = false := by
  have h := addAll_zero_of_dormant (calls.take k) (NewNackTracker params) rfl
    (fun c hc => hzero c (List.mem_of_mem_take hc))
  rw [h]
  rfl

/-- Witness of C7: three calls without repeated NACKs under the probe preset,
read after the first two at `2s`. -/
theorem isTriggered_false_of_zero_nacks_witness :
    ((NewNackTracker probeParams).AddAll
      (([⟨0, 100, 0⟩, ⟨600 * Millisecond, 4000000000, 0⟩,
        ⟨700 * Millisecond, 4000000000, 0⟩] : List AddCall).take 2)).IsTriggered
      (2 * Second) = false :=
  isTriggered_false_of_zero_nacks probeParams
    [⟨0, 100, 0⟩, ⟨600 * Millisecond, 4000000000, 0⟩, ⟨700 * Millisecond, 4000000000, 0⟩]
    (by decide) 2 (2 * Second)

/-- Without wrap of the `packets` counter and with no more repeated NACKs
than packets in the call, `Add` keeps `repeatedNacks ≤ packets`. -/
lemma add_preserves_le (n : NackTracker) (now : Int) (p r : Nat)
    (hinv : n.repeatedNacks ≤ n.packets) (hrp : r ≤ p)
    (hwrap : (n.expire now).packets + p < 2 ^ 32) :
    (n.Add now p r).repeatedNacks ≤ (n.Add now p r).packets := by
  have hexp : (n.expire now).repeatedNacks ≤ (n.expire now).packets := by
    unfold NackTracker.expire
    split
    · split_ifs
      · exact le_refl _
      · exact hinv
    · exact hinv
  unfold NackTracker.Add
  generalize n.expire now = m at hexp hwrap
  have hs1 : (m.startWindow now r).packets = m.packets := by
    unfold NackTracker.startWindow; split_ifs <;> rfl
  have hs2 : (m.startWindow now r).repeatedNacks = m.repeatedNacks := by
    unfold NackTracker.startWindow; split_ifs <;> rfl
  unfold NackTracker.accumulate
  split
  · simp only [hs1, hs2]
    rw [Nat.mod_eq_of_lt hwrap]
    exact le_trans (Nat.mod_le _ _) (Nat.add_le_add hexp hrp)
  · rw [hs1, hs2]; exact hexp

/-- The invariant `repeatedNacks ≤ packets` survives every bounded run. -/
lemma addAll_preserves_le (calls : List AddCall) :
    ∀ n : NackTracker, n.repeatedNacks ≤ n.packets → n.boundedRun calls = true →
      (n.AddAll calls).repeatedNacks ≤ (n.AddAll calls).packets := by
  induction calls with
  | nil => intro n h _; exact h
  | cons c cs ih =>
    intro n hinv hrun
    simp only [NackTracker.boundedRun, Bool.and_eq_true, decide_eq_true_eq] at hrun
    obtain ⟨⟨hrp, hwrap⟩, hrest⟩ := hrun
    exact ih _ (add_preserves_le n c.now c.packets c.repeatedNacks hinv hrp hwrap) hrest

/-- C8, as stated, fails in two ways.  A single `Add(0, 5)` on a fresh tracker
opens the window with `repeatedNacks = 5` and `packets = 0`; and
`Add(4294967295, 1)` followed by `Add(1, 1)` wraps the `packets` counter to `0`
while `repeatedNacks = 2`. -/
theorem repeatedNacks_exceed_packets_counterexample :
    (((NewNackTracker probeParams).AddAll [⟨0, 0, 5⟩]).windowStartTime = some 0 ∧
      ((NewNackTracker probeParams).AddAll [⟨0, 0, 5⟩]).packets = 0 ∧
      ((NewNackTracker probeParams).AddAll [⟨0, 0, 5⟩]).repeatedNacks = 5 ∧
      ¬ ((NewNackTracker probeParams).AddAll [⟨0, 0, 5⟩]).repeatedNacks ≤
        ((NewNackTracker probeParams).AddAll [⟨0, 0, 5⟩]).packets) ∧
    (((NewNackTracker probeParams).AddAll
        [⟨0, 4294967295, 1⟩, ⟨1, 1, 1⟩]).windowStartTime = some 0 ∧
      ((NewNackTracker probeParams).AddAll [⟨0, 4294967295, 1⟩, ⟨1, 1, 1⟩]).packets = 0 ∧
      ((NewNackTracker probeParams).AddAll
        [⟨0, 4294967295, 1⟩, ⟨1, 1, 1⟩]).repeatedNacks = 2) := by
  decide

/-- C8 (amended): for every state reached from a fresh tracker by a sequence
of `Add` calls each of which reports no more repeated NACKs than packets and
none of which wraps the `packets` counter, once the window is active,
`repeatedNacks ≤ packets`. -/
theorem repeatedNacks_le_packets (params : NackTrackerParams) (calls : List AddCall)
    (hrun : (NewNackTracker params).boundedRun calls = true)
    (_hactive : ((NewNackTracker params).AddAll calls).windowStartTime ≠ none) :
    ((NewNackTracker params).AddAll calls).repeatedNacks ≤
      ((NewNackTracker params).AddAll calls).packets :=
  addAll_preserves_le calls (NewNackTracker params) (le_refl _) hrun

/-- Witness of C8: two calls `Add(100, 5)` under the probe preset. -/
theorem repeatedNacks_le_packets_witness :
    ((NewNackTracker probeParams).AddAll
      [⟨0, 100, 5⟩, ⟨600 * Millisecond, 100, 5⟩]).repeatedNacks ≤
    ((NewNackTracker probeParams).AddAll
      [⟨0, 100, 5⟩, ⟨600 * Millisecond, 100, 5⟩]).packets :=
  repeatedNacks_le_packets probeParams [⟨0, 100, 5⟩, ⟨600 * Millisecond, 100, 5⟩]
    (by decide) (by decide)

/-! ## Scenarios -/

/-- C9: whenever the active window is no older than `WindowMinDuration` at the
clock reading, `IsTriggered` is false, whatever the ratio; in particular, under
the probe preset, `Add(100, 5)` at `0` followed by `IsTriggered` at `300ms`
yields false. -/
theorem isTriggered_false_of_young :
    (∀ (n : NackTracker) (start now : Int), n.windowStartTime = some start →
      since now start ≤ n.params.Config.WindowMinDuration →
      n.IsTriggered now = false) ∧
    ((NewNackTracker probeParams).Add 0 100 5).IsTriggered (300 * Millisecond) = false := by
  constructor
  · intro n start now hactive hyoung
    unfold NackTracker.IsTriggered
    rw [hactive]
    have : ¬ (n.params.Config.WindowMinDuration ≠ 0 ∧
        n.params.Config.WindowMinDuration < since now start) := by
      rintro ⟨_, hlt⟩; omega
    simp [this]
  · decide

/-- Witness of C9: a saturated ratio (`Add(1, 1)`) in a window of age `500ms`,
equal to the probe `WindowMinDuration`. -/
theorem isTriggered_false_of_young_witness :
    ((NewNackTracker probeParams).Add 0 1 1).IsTriggered (500 * Millisecond) = false :=
  isTriggered_false_of_young.1 ((NewNackTracker probeParams).Add 0 1 1) 0
    (500 * Millisecond) (by decide) (by decide)

/-- C10: under the probe preset (`WindowMinDuration = 500ms`,
`WindowMaxDuration = 1s`, `RatioThreshold = 0.04`), a fresh tracker that
receives `Add(100, 5)` at `0` and `Add(100, 5)` at `600ms` holds
`packets = 200`, `repeatedNacks = 10` and window start `0`; its ratio is the
float64 value of `0.05`, and `IsTriggered` read at `600ms` returns true. -/
theorem probe_trigger_scenario :
    probeParams.Config = DefaultNackTrackerConfigProbe ∧
    DefaultNackTrackerConfigProbe.WindowMinDuration = 500 * Millisecond ∧
    DefaultNackTrackerConfigProbe.WindowMaxDuration = 1 * Second ∧
    DefaultNackTrackerConfigProbe.RatioThreshold = Float64.ofFrac 4 100 ∧
    (((NewNackTracker probeParams).Add 0 100 5).Add (600 * Millisecond) 100 5).packets = 200 ∧
    (((NewNackTracker probeParams).Add 0 100 5).Add (600 * Millisecond) 100 5).repeatedNacks
      = 10 ∧
    (((NewNackTracker probeParams).Add 0 100 5).Add (600 * Millisecond) 100 5).windowStartTime
      = some 0 ∧
    (((NewNackTracker probeParams).Add 0 100 5).Add (600 * Millisecond) 100 5).GetRatio
      = Float64.ofFrac 5 100 ∧
    (((NewNackTracker probeParams).Add 0 100 5).Add (600 * Millisecond) 100 5).IsTriggered
      (600 * Millisecond) = true := by
  decide

/-- C11: under the probe preset, a fresh tracker that receives `Add(100, 5)` at
`0` and `Add(50, 3)` at `1100ms` ends with a new window started at `1100ms`
holding `packets = 50` and `repeatedNacks = 3`, the first window being
discarded, and `IsTriggered` read at `1200ms` returns false. -/
theorem probe_reset_scenario :
    probeParams.Config = DefaultNackTrackerConfigProbe ∧
    ((NewNackTracker probeParams).Add 0 100 5).Add (1100 * Millisecond) 50 3 =
      { params := probeParams, windowStartTime := some (1100 * Millisecond),
        packets := 50, repeatedNacks := 3 } ∧
    (((NewNackTracker probeParams).Add 0 100 5).Add (1100 * Millisecond) 50 3).IsTriggered
      (1200 * Millisecond) = false := by
  decide

/-! ## Construction -/

/-- C12, as stated, fails: `NewNackTracker` has no error result and checks
nothing.  For a configuration with `WindowMinDuration = 2s` above
`WindowMaxDuration = 1s`, and for one with negative durations, it returns a
tracker carrying that configuration, and the tracker accepts `Add`. -/
theorem newNackTracker_invalid_counterexample :
    invertedParams.Config.invalid = true ∧
    NewNackTracker invertedParams =
      { params := invertedParams, windowStartTime := none, packets := 0,
        repeatedNacks := 0 } ∧
    (NewNackTracker invertedParams).Add 0 100 5 =
      { params := invertedParams, windowStartTime := some 0, packets := 100,
        repeatedNacks := 5 } ∧
    negativeParams.Config.invalid = true ∧
    NewNackTracker negativeParams =
      { params := negativeParams, windowStartTime := none, packets := 0,
        repeatedNacks := 0 } := by
  decide

/-- C12 (amended): for every configuration, the invalid ones included,
`NewNackTracker` returns a tracker: it carries the given parameters unchanged,
is dormant with both counters zero, has ratio zero and is not triggered at any
clock reading. -/
theorem newNackTracker_total (params : NackTrackerParams) (now : Int) :
    (NewNackTracker params).params = params ∧
    (NewNackTracker params).windowStartTime = none ∧
    (NewNackTracker params).packets = 0 ∧
    (NewNackTracker params).repeatedNacks = 0 ∧
    (NewNackTracker params).GetRatio = Float64.finite 0 ∧
    (NewNackTracker params).IsTriggered now = false := by
  refine ⟨rfl, rfl, rfl, rfl, ?_, rfl⟩
  simp [NackTracker.GetRatio, NewNackTracker]

/-! ## Frame properties -/

/-- No block of `Add` touches the parameters. -/
lemma add_params (n : NackTracker) (now : Int) (p r : Nat) :
    (n.Add now p r).params = n.params := by
  have h1 : (n.expire now).params = n.params := by
    unfold NackTracker.expire
    split
    · split_ifs <;> rfl
    · rfl
  have h2 : ∀ m : NackTracker, (m.startWindow now r).params = m.params := by
    intro m; unfold NackTracker.startWindow; split_ifs <;> rfl
  have h3 : ∀ m : NackTracker, (m.accumulate p r).params = m.params := by
    intro m; unfold NackTracker.accumulate; split <;> rfl
  unfold NackTracker.Add
  rw [h3, h2, h1]

/-- C13: for every tracker state and clock reading, the reads `GetRatio`,
`IsTriggered` and `ToString` leave the receiver (start time, both counters
and parameters) unchanged; a method call that changes the receiver is an
`Add`; and no method call, `Add` included, changes the parameters. -/
theorem reads_are_pure (n : NackTracker) (now : Int) :
    (n.call Method.getRatio).1 = n ∧
    (n.call (Method.isTriggered now)).1 = n ∧
    (n.call (Method.toString now)).1 = n ∧
    (∀ m : Method, (n.call m).1 ≠ n → ∃ t p r, m = Method.add t p r) ∧
    (∀ m : Method, (n.call m).1.params = n.params) ∧
    (∀ p r : Nat, (n.Add now p r).params = n.params) := by
  refine ⟨rfl, rfl, rfl, ?_, ?_, fun p r => add_params n now p r⟩
  · intro m hm
    cases m with
    | add t p r => exact ⟨t, p, r, rfl⟩
    | getRatio => exact absurd rfl hm
    | isTriggered t => exact absurd rfl hm
    | toString t => exact absurd rfl hm
  · intro m
    cases m with
    | add t p r => exact add_params n t p r
    | getRatio => rfl
    | isTriggered t => rfl
    | toString t => rfl

/-- Witness of C13: on a fresh probe tracker the call `Add(100, 5)` changes the
receiver, and it is an `Add`. -/
theorem reads_are_pure_witness :
    ∃ t p r, Method.add 0 100 5 = Method.add t p r :=
  (reads_are_pure (NewNackTracker probeParams) 0).2.2.2.1 (Method.add 0 100 5) (by decide)

/-! ## Dormancy and the repeated-NACK counter -/

/-- The expiry block keeps the link between dormancy and the counters. -/
lemma expire_dormancy (n : NackTracker) (now : Int)
    (h1 : n.windowStartTime = none ↔ n.repeatedNacks = 0)
    (h2 : n.windowStartTime = none → n.packets = 0) :
    ((n.expire now).windowStartTime = none ↔ (n.expire now).repeatedNacks = 0) ∧
    ((n.expire now).windowStartTime = none → (n.expire now).packets = 0) := by
  unfold NackTracker.expire
  split
  · split_ifs
    · simp
    · exact ⟨h1, h2⟩
  · exact ⟨h1, h2⟩

/-- As long as the repeated-NACK counter does not overflow, `Add` keeps the
window dormant exactly when the counter is zero, and a dormant window has no
packets. -/
lemma add_dormancy (n : NackTracker) (now : Int) (p r : Nat)
    (h1 : n.windowStartTime = none ↔ n.repeatedNacks = 0)
    (h2 : n.windowStartTime = none → n.packets = 0)
    (hrn : (n.expire now).repeatedNacks + r < 2 ^ 32) :
    ((n.Add now p r).windowStartTime = none ↔ (n.Add now p r).repeatedNacks = 0) ∧
    ((n.Add now p r).windowStartTime = none → (n.Add now p r).packets = 0) := by
  obtain ⟨e1, e2⟩ := expire_dormancy n now h1 h2
  unfold NackTracker.Add
  generalize n.expire now = m at e1 e2 hrn
  cases hw : m.windowStartTime with
  | none =>
    have hz : m.repeatedNacks = 0 := e1.mp hw
    have hpz : m.packets = 0 := e2 hw
    by_cases hr : r = 0
    · simp [NackTracker.startWindow, NackTracker.accumulate, hz, hr, hw, hpz]
    · have hr32 : r < 2 ^ 32 := by omega
      simp [NackTracker.startWindow, NackTracker.accumulate, hz, hr]
      omega
  | some start =>
    have hnz : m.repeatedNacks ≠ 0 := fun h => by
      have := e1.mpr h; rw [hw] at this; cases this
    simp only [NackTracker.startWindow, hnz, false_and, if_false,
      NackTracker.accumulate, hw, Nat.mod_eq_of_lt hrn]
    simp
    omega

/-- The link between dormancy and the counters holds after every run of `Add`
calls without overflow. -/
lemma addAll_dormancy (calls : List AddCall) :
    ∀ n : NackTracker, (n.windowStartTime = none ↔ n.repeatedNacks = 0) →
      (n.windowStartTime = none → n.packets = 0) → n.exactRun calls = true →
      ((n.AddAll calls).windowStartTime = none ↔ (n.AddAll calls).repeatedNacks = 0) ∧
      ((n.AddAll calls).windowStartTime = none → (n.AddAll calls).packets = 0) := by
  induction calls with
  | nil => intro n h1 h2 _; exact ⟨h1, h2⟩
  | cons c cs ih =>
    intro n h1 h2 hrun
    simp only [NackTracker.exactRun, Bool.and_eq_true, decide_eq_true_eq] at hrun
    obtain ⟨⟨_, hrn⟩, hrest⟩ := hrun
    obtain ⟨a1, a2⟩ := add_dormancy n c.now c.packets c.repeatedNacks h1 h2 hrn
    exact ih _ a1 a2 hrest

/-- C15: the tracker locks on to the onset of a NACK burst.  In every state
reached from a fresh tracker by `Add` calls without `uint32` counter overflow
(whatever the order of the clock readings), an `Add(p, r)` on an active window
that has not expired (`WindowMaxDuration = 0`, or elapsed time at most
`WindowMaxDuration`) leaves `windowStartTime` unchanged, for every `p` and
`r`. -/
theorem add_keeps_window_start (params : NackTrackerParams) (calls : List AddCall)
    (start now : Int) (p r : Nat)
    (hrun : (NewNackTracker params).exactRun calls = true)
    (hactive : ((NewNackTracker params).AddAll calls).windowStartTime = some start)
    (hlive : ((NewNackTracker params).AddAll calls).params.Config.WindowMaxDuration = 0 ∨
      since now start ≤
        ((NewNackTracker params).AddAll calls).params.Config.WindowMaxDuration) :
    (((NewNackTracker params).AddAll calls).Add now p r).windowStartTime = some start := by
  obtain ⟨h1, _⟩ := addAll_dormancy calls (NewNackTracker params)
    (by simp [NewNackTracker]) (by simp [NewNackTracker]) hrun
  generalize (NewNackTracker params).AddAll calls = n at h1 hactive hlive
  have hnz : n.repeatedNacks ≠ 0 := fun h => by
    have := h1.mpr h; rw [hactive] at this; cases this
  have hexp : n.expire now = n := by
    unfold NackTracker.expire
    rw [hactive]
    have : ¬ (n.params.Config.WindowMaxDuration ≠ 0 ∧
        n.params.Config.WindowMaxDuration < since now start) := by
      rintro ⟨h0, hlt⟩
      rcases hlive with h | h
      · exact h0 h
      · omega
    simp [this]
  simp [NackTracker.Add, hexp, NackTracker.startWindow, hnz, NackTracker.accumulate,
    hactive]

/-- Witness of C15: a probe window opened at `0` by `Add(100, 5)`, then
`Add(100, 7)` at `600ms`. -/
theorem add_keeps_window_start_witness :
    (((NewNackTracker probeParams).AddAll [⟨0, 100, 5⟩]).Add (600 * Millisecond)
      100 7).windowStartTime = some 0 :=
  add_keeps_window_start probeParams [⟨0, 100, 5⟩] 0 (600 * Millisecond) 100 7
    (by decide) (by decide) (Or.inr (by decide))

/-- C16: in every state reached from a fresh tracker by `Add` calls whose
accumulated counters do not overflow `uint32`, the window is dormant if and
only if `repeatedNacks = 0`, and a dormant window has `packets = 0`, so that
`GetRatio` is zero whenever the window is dormant. -/
theorem dormant_iff_no_repeated_nacks (params : NackTrackerParams) (calls : List AddCall)
    (hrun : (NewNackTracker params).exactRun calls = true) :
    (((NewNackTracker params).AddAll calls).windowStartTime = none ↔
      ((NewNackTracker params).AddAll calls).repeatedNacks = 0) ∧
    (((NewNackTracker params).AddAll calls).windowStartTime = none →
      ((NewNackTracker params).AddAll calls).packets = 0 ∧
      ((NewNackTracker params).AddAll calls).GetRatio = Float64.finite 0) := by
  obtain ⟨h1, h2⟩ := addAll_dormancy calls (NewNackTracker params)
    (by simp [NewNackTracker]) (by simp [NewNackTracker]) hrun
  refine ⟨h1, fun hd => ⟨h2 hd, ?_⟩⟩
  simp [NackTracker.GetRatio, h2 hd]

/-- Witness of C16: a probe run whose window expires and whose last call
carries no repeated NACK, which leaves the tracker dormant. -/
theorem dormant_iff_no_repeated_nacks_witness :
    (((NewNackTracker probeParams).AddAll
        [⟨0, 100, 5⟩, ⟨1100 * Millisecond, 50, 0⟩]).windowStartTime = none ↔
      ((NewNackTracker probeParams).AddAll
        [⟨0, 100, 5⟩, ⟨1100 * Millisecond, 50, 0⟩]).repeatedNacks = 0) ∧
    (((NewNackTracker probeParams).AddAll
        [⟨0, 100, 5⟩, ⟨1100 * Millisecond, 50, 0⟩]).windowStartTime = none →
      ((NewNackTracker probeParams).AddAll
        [⟨0, 100, 5⟩, ⟨1100 * Millisecond, 50, 0⟩]).packets = 0 ∧
      ((NewNackTracker probeParams).AddAll
        [⟨0, 100, 5⟩, ⟨1100 * Millisecond, 50, 0⟩]).GetRatio = Float64.finite 0) :=
  dormant_iff_no_repeated_nacks probeParams [⟨0, 100, 5⟩, ⟨1100 * Millisecond, 50, 0⟩]
    (by decide)

/-! ## Window age -/

/-- No time elapses between a clock reading and itself. -/
lemma since_self (now : Int) : since now now = 0 := by
  simp [since, maxDuration, minDuration]

/-- The elapsed time grows with the clock reading. -/
lemma since_mono (start t u : Int) (h : t ≤ u) : since t start ≤ since u start := by
  unfold since maxDuration minDuration
  split_ifs <;> omega

/-- C17: for every configuration with `WindowMaxDuration > 0`, every tracker
state and every `Add(p, r)` at clock reading `now`, the state right after `Add`
is either dormant or has an active window whose elapsed time at `now` is at
most `WindowMaxDuration`: an expired window never survives an `Add`. -/
theorem add_window_age (n : NackTracker) (now : Int) (p r : Nat)
    (hmax : 0 < n.params.Config.WindowMaxDuration) :
    (n.Add now p r).windowStartTime = none ∨
    ∃ start, (n.Add now p r).windowStartTime = some start ∧
      since now start ≤ n.params.Config.WindowMaxDuration := by
  have hne : n.params.Config.WindowMaxDuration ≠ 0 := by omega
  have hexp : (n.expire now).windowStartTime = none ∨
      ∃ start, (n.expire now).windowStartTime = some start ∧
        since now start ≤ n.params.Config.WindowMaxDuration := by
    unfold NackTracker.expire
    cases hw : n.windowStartTime with
    | none => left; simp [hw]
    | some start =>
      by_cases hold : n.params.Config.WindowMaxDuration < since now start
      · left; simp [hne, hold]
      · right
        refine ⟨start, ?_, not_lt.mp hold⟩
        simp [hold, hw]
  have hacc : ∀ m : NackTracker, (m.accumulate p r).windowStartTime = m.windowStartTime := by
    intro m; unfold NackTracker.accumulate; split <;> simp_all
  unfold NackTracker.Add
  rw [hacc]
  unfold NackTracker.startWindow
  split_ifs with hs
  · right
    exact ⟨now, rfl, by rw [since_self]; exact hmax.le⟩
  · exact hexp

/-- Witness of C17: under the probe preset, a window opened at `0` and an
`Add(50, 3)` at `1100ms`. -/
theorem add_window_age_witness :
    (((NewNackTracker probeParams).Add 0 100 5).Add (1100 * Millisecond) 50
      3).windowStartTime = none ∨
    ∃ start, (((NewNackTracker probeParams).Add 0 100 5).Add (1100 * Millisecond) 50
      3).windowStartTime = some start ∧
      since (1100 * Millisecond) start ≤
        ((NewNackTracker probeParams).Add 0 100 5).params.Config.WindowMaxDuration :=
  add_window_age ((NewNackTracker probeParams).Add 0 100 5) (1100 * Millisecond) 50 3
    (by decide)

/-- C18: with no `Add` in between, `IsTriggered` is monotone in the clock: for
every state and every pair of clock readings `t ≤ u`, triggered at `t` implies
triggered at `u`.  In particular a window older than `WindowMaxDuration` still
reports triggered, expiry being applied only inside `Add`: under the probe
preset the window opened at `0` by `Add(100, 5)` is triggered at `600ms` and
still at `1200ms`, past `WindowMaxDuration = 1s`. -/
theorem isTriggered_mono :
    (∀ (n : NackTracker) (t u : Int), t ≤ u → n.IsTriggered t = true →
      n.IsTriggered u = true) ∧
    (((NewNackTracker probeParams).Add 0 100 5).windowStartTime = some 0 ∧
      probeParams.Config.WindowMaxDuration < since (1200 * Millisecond) 0 ∧
      ((NewNackTracker probeParams).Add 0 100 5).IsTriggered (600 * Millisecond) = true ∧
      ((NewNackTracker probeParams).Add 0 100 5).IsTriggered (1200 * Millisecond) = true) := by
  constructor
  · intro n t u htu ht
    unfold NackTracker.IsTriggered at ht ⊢
    cases hw : n.windowStartTime with
    | none => rw [hw] at ht; cases ht
    | some start =>
      rw [hw] at ht
      simp only at ht ⊢
      by_cases hc : n.params.Config.WindowMinDuration ≠ 0 ∧
          n.params.Config.WindowMinDuration < since t start
      · rw [if_pos hc] at ht
        have hc2 : n.params.Config.WindowMinDuration ≠ 0 ∧
            n.params.Config.WindowMinDuration < since u start :=
          ⟨hc.1, lt_of_lt_of_le hc.2 (since_mono start t u htu)⟩
        rw [if_pos hc2]
        exact ht
      · rw [if_neg hc] at ht
        cases ht
  · decide

/-- Witness of C18: the probe window opened at `0`, read at `600ms` and at `5s`. -/
theorem isTriggered_mono_witness :
    ((NewNackTracker probeParams).Add 0 100 5).IsTriggered (5 * Second) = true :=
  isTriggered_mono.1 ((NewNackTracker probeParams).Add 0 100 5) (600 * Millisecond)
    (5 * Second) (by decide) (by decide)

end StreamAllocator

namespace Sendsidebwe

/-! ## Names of the congestion states -/

/-- With enough fuel, `digitsFuel` computes the base-ten digits. -/
lemma digitsFuel_eq : ∀ (fuel n : Nat), n ≤ fuel → digitsFuel fuel n = Nat.digits 10 n := by
  intro fuel
  induction fuel with
  | zero => intro n h; have : n = 0 := by omega
            subst this; simp [digitsFuel]
  | succ k ih =>
    intro n h
    unfold digitsFuel
    by_cases h0 : n = 0
    · simp [h0]
    · rw [if_neg h0, ih (n / 10) (by omega),
        Nat.digits_def' (by norm_num) (Nat.pos_of_ne_zero h0)]

/-- Every decimal digit is below ten. -/
lemma decimalDigits_lt (n d : Nat) (h : d ∈ decimalDigits n) : d < 10 := by
  unfold decimalDigits at h
  split_ifs at h with h0
  · simp at h; omega
  · rw [digitsFuel_eq n n le_rfl, List.mem_reverse] at h
    exact Nat.digits_lt_base (by norm_num) h

/-- A decimal rendering has at least one digit. -/
lemma decimalDigits_ne_nil (n : Nat) : decimalDigits n ≠ [] := by
  unfold decimalDigits
  split_ifs with h0
  · simp
  · rw [digitsFuel_eq n n le_rfl]
    simpa [Nat.digits_ne_nil_iff_ne_zero] using h0

/-- Distinct numbers have distinct digit sequences. -/
lemma decimalDigits_inj (n m : Nat) (h : decimalDigits n = decimalDigits m) : n = m := by
  have key : ∀ a : Nat, a ≠ 0 → Nat.digits 10 a ≠ [0] := by
    intro a ha hd
    have := Nat.ofDigits_digits 10 a
    rw [hd] at this
    simp [Nat.ofDigits] at this
    exact ha this.symm
  unfold decimalDigits at h
  rw [digitsFuel_eq n n le_rfl, digitsFuel_eq m m le_rfl] at h
  split_ifs at h with hn hm hm
  · rw [hn, hm]
  · exfalso
    have h2 := congrArg List.reverse h
    simp at h2
    exact key m hm h2.symm
  · exfalso
    have h2 := congrArg List.reverse h
    simp at h2
    exact key n hn h2
  · exact Nat.digits_inj_iff.mp (List.reverse_injective h)

/-- Distinct digits have distinct characters. -/
lemma digitChar_inj : ∀ d < 10, ∀ e < 10, digitChar d = digitChar e → d = e := by decide

/-- A digit character is neither the letter `N` nor the minus sign. -/
lemma digitChar_ne : ∀ d < 10, digitChar d ≠ 'N' ∧ digitChar d ≠ '-' := by decide

/-- Rendering digit sequences as characters loses nothing. -/
lemma map_digitChar_inj : ∀ (l1 l2 : List Nat), (∀ d ∈ l1, d < 10) → (∀ d ∈ l2, d < 10) →
    l1.map digitChar = l2.map digitChar → l1 = l2 := by
  intro l1
  induction l1 with
  | nil => intro l2 _ _ h; cases l2 with
    | nil => rfl
    | cons b t => simp at h
  | cons a t ih =>
    intro l2 h1 h2 h
    cases l2 with
    | nil => simp at h
    | cons b t2 =>
      simp only [List.map_cons, List.cons.injEq] at h
      have hab := digitChar_inj a (h1 a (List.mem_cons_self _ _)) b
        (h2 b (List.mem_cons_self _ _)) h.1
      have ht := ih t2 (fun d hd => h1 d (List.mem_cons_of_mem _ hd))
        (fun d hd => h2 d (List.mem_cons_of_mem _ hd)) h.2
      rw [hab, ht]

/-- The decimal rendering of integers is injective. -/
lemma formatInt_inj (i j : Int) (h : formatInt i = formatInt j) : i = j := by
  cases i with
  | ofNat n =>
    cases j with
    | ofNat m =>
      have h := congrArg String.data h
      simp only [formatInt] at h
      have := map_digitChar_inj _ _ (decimalDigits_lt n) (decimalDigits_lt m) h
      rw [decimalDigits_inj n m this]
    | negSucc m =>
      exfalso
      have h := congrArg String.data h
      simp only [formatInt] at h
      cases hd : decimalDigits n with
      | nil => exact decimalDigits_ne_nil n hd
      | cons a t =>
        rw [hd] at h
        simp only [List.map_cons, List.cons.injEq] at h
        have ha : a < 10 := decimalDigits_lt n a (by rw [hd]; exact List.mem_cons_self _ _)
        exact (digitChar_ne a ha).2 h.1
  | negSucc n =>
    cases j with
    | ofNat m =>
      exfalso
      have h := congrArg String.data h
      simp only [formatInt] at h
      cases hd : decimalDigits m with
      | nil => exact decimalDigits_ne_nil m hd
      | cons a t =>
        rw [hd] at h
        simp only [List.map_cons, List.cons.injEq] at h
        have ha : a < 10 := decimalDigits_lt m a (by rw [hd]; exact List.mem_cons_self _ _)
        exact (digitChar_ne a ha).2 h.1.symm
    | negSucc m =>
      have h := congrArg String.data h
      simp only [formatInt, List.cons.injEq, true_and] at h
      have := map_digitChar_inj _ _ (decimalDigits_lt (n + 1)) (decimalDigits_lt (m + 1)) h
      have := decimalDigits_inj _ _ this
      have hnm : n = m := by omega
      rw [hnm]

/-- A decimal rendering contains no letter `N`. -/
lemma formatInt_no_letter (i : Int) : 'N' ∉ (formatInt i).data := by
  intro h
  cases i with
  | ofNat n =>
    simp only [formatInt, List.mem_map] at h
    obtain ⟨d, hd, hc⟩ := h
    exact (digitChar_ne d (decimalDigits_lt n d hd)).1 hc
  | negSucc n =>
    simp only [formatInt, List.mem_cons, List.mem_map] at h
    rcases h with h | ⟨d, hd, hc⟩
    · exact absurd h (by decide)
    · exact (digitChar_ne d (decimalDigits_lt (n + 1) d hd)).1 hc

/-- The method `String` never gives the same text for two values. -/
lemma string_injective : Function.Injective CongestionState.String := by
  have named : ∀ c : CongestionState, (c = 0 ∨ c = 1 ∨ c = 2 ∨ c = 3 ∨ c = 4) →
      'N' ∈ (CongestionState.String c).data := by
    intro c hc
    rcases hc with h | h | h | h | h <;> subst h <;> decide
  have unnamed : ∀ c : CongestionState, ¬ (c = 0 ∨ c = 1 ∨ c = 2 ∨ c = 3 ∨ c = 4) →
      CongestionState.String c = formatInt c := by
    intro c hc
    simp only [not_or] at hc
    obtain ⟨h0, h1, h2, h3, h4⟩ := hc
    simp [CongestionState.String, CongestionStateNone, CongestionStateEarlyWarning,
      CongestionStateEarlyWarningHangover, CongestionStateCongested,
      CongestionStateCongestedHangover, h0, h1, h2, h3, h4]
  intro c d h
  by_cases hc : c = 0 ∨ c = 1 ∨ c = 2 ∨ c = 3 ∨ c = 4
  · by_cases hd : d = 0 ∨ d = 1 ∨ d = 2 ∨ d = 3 ∨ d = 4
    · rcases hc with h1 | h1 | h1 | h1 | h1 <;> rcases hd with h2 | h2 | h2 | h2 | h2 <;>
        subst h1 <;> subst h2 <;> first | rfl | (exact absurd h (by decide))
    · exfalso
      have h1 := named c hc
      rw [h, unnamed d hd] at h1
      exact formatInt_no_letter d h1
  · by_cases hd : d = 0 ∨ d = 1 ∨ d = 2 ∨ d = 3 ∨ d = 4
    · exfalso
      have h1 := named d hd
      rw [← h, unnamed c hc] at h1
      exact formatInt_no_letter c h1
    · rw [unnamed c hc, unnamed d hd] at h
      exact formatInt_inj c d h

/-- C19: `CongestionState` has the five named values `None`, `EarlyWarning`,
`EarlyWarningHangover`, `Congested`, `CongestedHangover`, numbered `0` to `4`
with `None` the zero value; `String` maps them to the five pairwise distinct
names `NONE`, `EARLY_WARNING`, `EARLY_WARNING_HANGOVER`, `CONGESTED`,
`CONGESTED_HANGOVER`, maps every other integer to its decimal rendering (`5`,
`-1` and `12` are shown), and is injective on all values. -/
theorem congestionState_string :
    (∀ c : CongestionState, c ≠ CongestionStateNone → c ≠ CongestionStateEarlyWarning →
      c ≠ CongestionStateEarlyWarningHangover → c ≠ CongestionStateCongested →
      c ≠ CongestionStateCongestedHangover → CongestionState.String c = formatInt c) ∧
    ([CongestionStateNone, CongestionStateEarlyWarning, CongestionStateEarlyWarningHangover,
      CongestionStateCongested, CongestionStateCongestedHangover] : List CongestionState)
      = [0, 1, 2, 3, 4] ∧
    [CongestionStateNone, CongestionStateEarlyWarning, CongestionStateEarlyWarningHangover,
      CongestionStateCongested, CongestionStateCongestedHangover].map CongestionState.String
      = ["NONE", "EARLY_WARNING", "EARLY_WARNING_HANGOVER", "CONGESTED",
        "CONGESTED_HANGOVER"] ∧
    ["NONE", "EARLY_WARNING", "EARLY_WARNING_HANGOVER", "CONGESTED",
      "CONGESTED_HANGOVER"].Nodup ∧
    [CongestionState.String 5, CongestionState.String (-1), CongestionState.String 12]
      = ["5", "-1", "12"] ∧
    Function.Injective CongestionState.String := by
  refine ⟨?_, by decide, by decide, by decide, by decide, string_injective⟩
  intro c h0 h1 h2 h3 h4
  simp [CongestionState.String, h0, h1, h2, h3, h4]

/-- Witness of C19: the value `7` is none of the five named states. -/
theorem congestionState_string_witness :
    CongestionState.String 7 = formatInt 7 :=
  congestionState_string.1 7 (by decide) (by decide) (by decide) (by decide) (by decide)

/-! ## Onset of congestion -/

/-- After `k` JQR groups, with `k` at most `CongestedGroups`, a detector that
started in state `None` with no JQR run pending has counted `k` JQR groups in
a row and sits in the state the thresholds give. -/
lemma onGroups_jqr (d : congestionDetector) (hstate : d.state = CongestionStateNone)
    (hrun : d.jqrStreak = 0) (hEW : 0 < d.params.Config.EarlyWarningGroups)
    (hlt : d.params.Config.EarlyWarningGroups < d.params.Config.CongestedGroups)
    (hrec : 0 < d.params.Config.RecoverGroups) :
    ∀ k : Nat, k ≤ d.params.Config.CongestedGroups →
      (d.onGroups (List.replicate k QueuingRegion.JQR)).params = d.params ∧
      (d.onGroups (List.replicate k QueuingRegion.JQR)).jqrStreak = k ∧
      (d.onGroups (List.replicate k QueuingRegion.JQR)).state =
        if k < d.params.Config.EarlyWarningGroups then CongestionStateNone
        else if k < d.params.Config.CongestedGroups then CongestionStateEarlyWarning
        else CongestionStateCongested := by
  intro k
  induction k with
  | zero =>
    intro _
    simp [congestionDetector.onGroups, hstate, hrun, hEW]
  | succ k ih =>
    intro hk
    obtain ⟨ic, ij, is⟩ := ih (by omega)
    rw [List.replicate_succ', congestionDetector.onGroups, List.foldl_append]
    simp only [List.foldl_cons, List.foldl_nil]
    rw [← congestionDetector.onGroups]
    generalize d.onGroups (List.replicate k QueuingRegion.JQR) = e at ic ij is
    simp only [congestionDetector.onGroup, ic, ij]
    refine ⟨trivial, trivial, ?_⟩
    rw [is]
    by_cases h1 : k < d.params.Config.EarlyWarningGroups
    · have h2 : k + 1 < d.params.Config.CongestedGroups := by omega
      by_cases h3 : k + 1 < d.params.Config.EarlyWarningGroups
      · have h4 : ¬ d.params.Config.EarlyWarningGroups ≤ k + 1 := by omega
        simp [nextState, h1, h3, h4]
      · have h4 : d.params.Config.EarlyWarningGroups ≤ k + 1 := by omega
        simp [nextState, h1, h3, h4, h2]
    · have h3 : ¬ k + 1 < d.params.Config.EarlyWarningGroups := by omega
      have h5 : k < d.params.Config.CongestedGroups := by omega
      have h6 : ¬ d.params.Config.RecoverGroups ≤ 0 := by omega
      by_cases h2 : k + 1 < d.params.Config.CongestedGroups
      · have h4 : ¬ d.params.Config.CongestedGroups ≤ k + 1 := by omega
        simp [nextState, h1, h3, h5, h2, h4, h6, CongestionStateNone,
          CongestionStateEarlyWarning]
      · have h4 : d.params.Config.CongestedGroups ≤ k + 1 := by omega
        simp [nextState, h1, h3, h5, h2, h4, CongestionStateNone,
          CongestionStateEarlyWarning]

/-- C14, as stated, fails for the detector owned by `SendSideBWE` in four ways;
each trace lists the state before any group and after each JQR group.
With thresholds `2` and `4` and `RecoverGroups = 0` the trace is `None, None,
EarlyWarning, EarlyWarningHangover, EarlyWarning, Congested`: a hangover state
is visited and `Congested` comes after five groups, not four.  With both
thresholds `3` the state after three groups is `EarlyWarning` and `Congested`
comes after four.  With `EarlyWarningGroups = 0` the state after zero groups is
`None` and `EarlyWarning` comes after one group.  With thresholds `2` and `4`,
a detector that has seen one JQR group and one indeterminate group is in state
`None` with a JQR run of one pending, and reaches `EarlyWarning` after one
more JQR group, not two. -/
theorem all_jqr_onset_counterexample :
    jqrTrace (NewSendSideBWE zeroRecoverConfig).congestionDetector 5 =
      [CongestionStateNone, CongestionStateNone, CongestionStateEarlyWarning,
        CongestionStateEarlyWarningHangover, CongestionStateEarlyWarning,
        CongestionStateCongested] ∧
    jqrTrace (NewSendSideBWE equalThresholdsConfig).congestionDetector 4 =
      [CongestionStateNone, CongestionStateNone, CongestionStateNone,
        CongestionStateEarlyWarning, CongestionStateCongested] ∧
    jqrTrace (NewSendSideBWE zeroEarlyWarningConfig).congestionDetector 2 =
      [CongestionStateNone, CongestionStateEarlyWarning, CongestionStateCongested] ∧
    (((NewSendSideBWE sampleConfig).congestionDetector.onGroups
        [QueuingRegion.JQR, QueuingRegion.Indeterminate]).state = CongestionStateNone ∧
      jqrTrace ((NewSendSideBWE sampleConfig).congestionDetector.onGroups
        [QueuingRegion.JQR, QueuingRegion.Indeterminate]) 2 =
        [CongestionStateNone, CongestionStateEarlyWarning, CongestionStateEarlyWarning]) := by
  decide

/-- C14 (amended): let the thresholds of the detector owned by `SendSideBWE`
be positive group counts with `EarlyWarningGroups < CongestedGroups` and
`RecoverGroups > 0`.  Starting from a detector in state `None` with no JQR run
pending, the fresh detector built by `NewSendSideBWE` in particular, the
state after `k` JQR groups is `None` for `k < EarlyWarningGroups`,
`EarlyWarning` for `EarlyWarningGroups ≤ k < CongestedGroups`, and `Congested`
for `k = CongestedGroups`: `EarlyWarning` is reached after exactly
`EarlyWarningGroups` groups, `Congested` after exactly `CongestedGroups` groups
in total, and no other state is visited in between. -/
theorem all_jqr_onset (params : SendSideBWEParams)
    (hEW : 0 < params.Config.CongestionDetector.EarlyWarningGroups)
    (hlt : params.Config.CongestionDetector.EarlyWarningGroups <
      params.Config.CongestionDetector.CongestedGroups)
    (hrec : 0 < params.Config.CongestionDetector.RecoverGroups)
    (k : Nat) (hk : k ≤ params.Config.CongestionDetector.CongestedGroups) :
    (∀ d : congestionDetector, d.params.Config = params.Config.CongestionDetector →
      d.state = CongestionStateNone → d.jqrStreak = 0 →
      (d.onGroups (List.replicate k QueuingRegion.JQR)).state =
        if k < params.Config.CongestionDetector.EarlyWarningGroups then CongestionStateNone
        else if k < params.Config.CongestionDetector.CongestedGroups then
          CongestionStateEarlyWarning
        else CongestionStateCongested) ∧
    ((NewSendSideBWE params).congestionDetector.onGroups
      (List.replicate k QueuingRegion.JQR)).state =
      if k < params.Config.CongestionDetector.EarlyWarningGroups then CongestionStateNone
      else if k < params.Config.CongestionDetector.CongestedGroups then
        CongestionStateEarlyWarning
      else CongestionStateCongested := by
  have general : ∀ d : congestionDetector,
      d.params.Config = params.Config.CongestionDetector →
      d.state = CongestionStateNone → d.jqrStreak = 0 →
      (d.onGroups (List.replicate k QueuingRegion.JQR)).state =
        if k < params.Config.CongestionDetector.EarlyWarningGroups then CongestionStateNone
        else if k < params.Config.CongestionDetector.CongestedGroups then
          CongestionStateEarlyWarning
        else CongestionStateCongested := by
    intro d hc hs hj
    rw [← hc] at hEW hlt hrec hk ⊢
    exact (onGroups_jqr d hs hj hEW hlt hrec k hk).2.2
  exact ⟨general, general _ rfl rfl rfl⟩

/-- Witness of C14: thresholds `2` and `4`; a detector back in state `None`
after one DQR group, and the fresh detector, are `Congested` after four JQR
groups. -/
theorem all_jqr_onset_witness :
    (((NewSendSideBWE sampleConfig).congestionDetector.onGroup
        QueuingRegion.DQR).onGroups (List.replicate 4 QueuingRegion.JQR)).state =
      CongestionStateCongested ∧
    ((NewSendSideBWE sampleConfig).congestionDetector.onGroups
      (List.replicate 4 QueuingRegion.JQR)).state = CongestionStateCongested :=
  ⟨(all_jqr_onset sampleConfig (by decide) (by decide) (by decide) 4 (by decide)).1
      ((NewSendSideBWE sampleConfig).congestionDetector.onGroup QueuingRegion.DQR)
      (by decide) (by decide) (by decide),
    (all_jqr_onset sampleConfig (by decide) (by decide) (by decide) 4 (by decide)).2⟩

end Sendsidebwe
